import Mathlib

/-!
Shallow embedding of `pkg/client/docker/docker.go` from the
version-checker repository: the Docker Hub registry client that
authenticates against the login endpoint, recognizes image references it
owns, and paginates the tag-listing endpoint into a flat list of image
tags.

External effects (the HTTP transport, Go's `json.Unmarshal` and
`time.Parse`) are passed in as explicit function parameters; everything
the repository's own code does (normalization, header construction,
filtering, pagination, error propagation) is translated directly.
Parsed timestamps are modelled as `Int` (an opaque point in time).
-/

namespace Docker

/-- Wire model of one platform image entry (`Image` in the source):
JSON fields `digest`, `os`, `Architecture`. -/
structure Image where
  digest : String
  os : String
  architecture : String
  deriving DecidableEq, Repr

/-- Wire model of one tag result (`Result` in the source): JSON fields
`name`, `last_updated` (kept as the raw string), `images`. -/
structure Result where
  name : String
  timestamp : String
  images : List Image
  deriving DecidableEq, Repr

/-- Wire model of one tag page (`TagResponse` in the source): JSON
fields `next` and `results`. -/
structure TagResponse where
  next : String
  results : List Result
  deriving DecidableEq, Repr

/-- The auth endpoint's decoded body (`AuthResponse` in the source). -/
structure AuthResponse where
  token : String
  deriving DecidableEq, Repr

/-- The exported result record (`api.ImageTag`): tag name, digest
(`SHA`), parsed timestamp, OS and architecture. -/
structure ImageTag where
  tag : String
  sha : String
  timestamp : Int
  os : String
  architecture : String
  deriving DecidableEq, Repr

/-- Client options (`Options` in the source). -/
structure Options where
  loginURL : String
  username : String
  password : String
  jwt : String
  deriving DecidableEq, Repr

/-- The constructed client (`Client` in the source): its resolved
options, the embedded `http.Client` being pure plumbing. -/
structure Client where
  options : Options
  deriving DecidableEq, Repr

/-- An outgoing GET request as the source builds it in `doRequest`:
URL, scheme (forced to `https`), and the header list. -/
structure Request where
  url : String
  scheme : String
  headers : List (String × String)
  deriving DecidableEq, Repr

/-- An HTTP response: status code and raw body text. -/
structure HttpResponse where
  status : Nat
  body : String
  deriving DecidableEq, Repr

/-- The constant `imagePrefix = "docker.io/"` of the source. -/
def imagePrefix : String := "docker.io/"

/-- The constant `imagePrefixHub = "registry.hub.docker.com/"`. -/
def imagePrefixHub : String := "registry.hub.docker.com/"

/-- `fmt.Sprintf(repoURL, path)` with the source's template
`https://registry.hub.docker.com/v2/repositories/%s/tags`. -/
def repoURLFor (path : String) : String :=
  "https://registry.hub.docker.com/v2/repositories/" ++ path ++ "/tags"

/-- Go's `strings.HasPrefix pre s`: does `s` begin with `pre`? Modelled
at the character-list level. -/
def hasPre (pre s : String) : Bool :=
  pre.data.isPrefixOf s.data

/-- Go's `strings.Split(s, "/")` at the character level: the segments
between `/` separators, one more segment than there are separators. -/
def splitSlash : List Char → List (List Char)
  | [] => [[]]
  | c :: rest =>
    if c = '/' then [] :: splitSlash rest
    else
      match splitSlash rest with
      | [] => [[c]]
      | s :: ss => (c :: s) :: ss

/-- `IsClient`: true iff the reference starts with `docker.io/` or with
`registry.hub.docker.com/` (source lines 79-82). -/
def IsClient (imageURL : String) : Bool :=
  hasPre imagePrefix imageURL || hasPre imagePrefixHub imageURL

/-- `strings.TrimPrefix` guarded by `strings.HasPrefix` as the source
uses it: drop the prefix when present, otherwise keep the string. -/
def trimPre (pre s : String) : String :=
  if hasPre pre s then s.drop pre.length else s

/-- The normalization steps of `Tags` (source lines 85-95): strip
`docker.io/` if present, then strip `registry.hub.docker.com/` if
present on the result, then prepend `library/` when the remaining path
splits on `/` into a single segment (Go's
`len(strings.Split(imageURL, "/")) == 1`). -/
def normalizeImageURL (imageURL : String) : String :=
  let s1 := trimPre imagePrefix imageURL
  let s2 := trimPre imagePrefixHub s1
  if (splitSlash s2.data).length = 1 then "library/" ++ s2 else s2

/-- The request `doRequest` builds (source lines 140-149): GET at the
given URL, scheme forced to `https`, and `Authorization: JWT <token>`
added exactly when the client's JWT is non-empty. -/
def buildTagRequest (jwt url : String) : Request :=
  { url := url
    scheme := "https"
    headers :=
      if 0 < jwt.length then [("Authorization", "JWT " ++ jwt)] else [] }

/-- The response half of `doRequest` (source lines 156-166): the body is
decoded as a `TagResponse`; a body that fails to decode is an error
carrying the raw body. The status code is never inspected. -/
def handleTagResponse (decodeTags : String → Option TagResponse)
    (resp : HttpResponse) : Except String TagResponse :=
  match decodeTags resp.body with
  | some r => Except.ok r
  | none => Except.error ("unexpected image tags response: " ++ resp.body)

/-- `doRequest` (source lines 139-167): build the request, run it over
the transport (a transport failure is wrapped), then decode the body.
`transport` stands for `http.Client.Do` plus `ioutil.ReadAll`;
`decodeTags` stands for `json.Unmarshal` into `TagResponse`. -/
def doRequest (transport : Request → Except String HttpResponse)
    (decodeTags : String → Option TagResponse)
    (jwt url : String) : Except String TagResponse :=
  match transport (buildTagRequest jwt url) with
  | Except.error e => Except.error ("failed to get docker image: " ++ e)
  | Except.ok resp => handleTagResponse decodeTags resp

/-- The body of the inner image loop of `Tags` (source lines 117-130):
an image with an empty digest is skipped, any other image yields one
`ImageTag` carrying the enclosing result's name and parsed timestamp
together with the image's digest, OS and architecture. -/
def mkTag (nm : String) (t : Int) (img : Image) : Option ImageTag :=
  if img.digest.length = 0 then none
  else some { tag := nm, sha := img.digest, timestamp := t,
              os := img.os, architecture := img.architecture }

/-- The per-result body of the `Tags` loop (source lines 106-131): a
result with no images is skipped before its timestamp is parsed; an
unparsable timestamp is an error; otherwise one `ImageTag` is emitted
per image whose digest is non-empty. `parseTime` stands for
`time.Parse(time.RFC3339Nano, ·)`. -/
def emitResult (parseTime : String → Option Int) (r : Result) :
    Except String (List ImageTag) :=
  if r.images.length = 0 then Except.ok []
  else
    match parseTime r.timestamp with
    | none => Except.error "failed to parse image timestamp"
    | some t => Except.ok (r.images.filterMap (mkTag r.name t))

/-- The per-page body of the `Tags` loop: results processed in order,
the first error aborting the whole resolution, emissions concatenated. -/
def emitResults (parseTime : String → Option Int) :
    List Result → Except String (List ImageTag)
  | [] => Except.ok []
  | r :: rest =>
    match emitResult parseTime r with
    | Except.error e => Except.error e
    | Except.ok l =>
      match emitResults parseTime rest with
      | Except.error e => Except.error e
      | Except.ok ls => Except.ok (l ++ ls)

/-- The pagination loop of `Tags` (source lines 100-134), with explicit
fuel since the Go loop is bounded only by the registry's `next` chain.
Returns the resolution outcome together with the trace of requests
issued, in order. An empty URL ends the loop; otherwise one request is
issued, the page is decoded and folded in, and the loop advances to the
page's `next` URL. -/
def tagsLoop (transport : Request → Except String HttpResponse)
    (decodeTags : String → Option TagResponse)
    (parseTime : String → Option Int) (jwt : String) :
    Nat → String → List ImageTag → List Request →
    Except String (List ImageTag) × List Request
  | 0, url, acc, reqs =>
    if url = "" then (Except.ok acc, reqs)
    else (Except.error "pagination fuel exhausted", reqs)
  | fuel + 1, url, acc, reqs =>
    if url = "" then (Except.ok acc, reqs)
    else
      match doRequest transport decodeTags jwt url with
      | Except.error e => (Except.error e, reqs ++ [buildTagRequest jwt url])
      | Except.ok page =>
        match emitResults parseTime page.results with
        | Except.error e =>
          (Except.error e, reqs ++ [buildTagRequest jwt url])
        | Except.ok l =>
          tagsLoop transport decodeTags parseTime jwt fuel page.next
            (acc ++ l) (reqs ++ [buildTagRequest jwt url])

/-- `Tags` (source lines 84-137): normalize the reference, build the
first page URL from the template, and run the pagination loop. -/
def Tags (transport : Request → Except String HttpResponse)
    (decodeTags : String → Option TagResponse)
    (parseTime : String → Option Int) (jwt : String) (fuel : Nat)
    (imageURL : String) : Except String (List ImageTag) × List Request :=
  tagsLoop transport decodeTags parseTime jwt fuel
    (repoURLFor (normalizeImageURL imageURL)) [] []

/-- `New` (source lines 55-77). `auth` stands for the network part of
`basicAuthSetup`; the returned `Nat` counts how many times it was
invoked (the only network activity construction can perform). When a
username or password is set, a non-empty JWT is a conflict error raised
before `auth` is ever called; otherwise `auth` runs once and its token
is stored. With no username and no password the options are stored
as-is with zero network calls. -/
def new (auth : Options → Except String String) (opts : Options) :
    Except String Client × Nat :=
  if 0 < opts.username.length ∨ 0 < opts.password.length then
    if 0 < opts.jwt.length then
      (Except.error "cannot specify JWT as well as username/password", 0)
    else
      match auth opts with
      | Except.error e => (Except.error ("failed to setup auth: " ++ e), 1)
      | Except.ok token => (Except.ok { options := { opts with jwt := token } }, 1)
  else
    (Except.ok { options := opts }, 0)

/-- The login request body as `basicAuthSetup` builds it (source lines
170-174): a raw `fmt.Sprintf` interpolation of username and password
into a JSON-shaped template, with no escaping. -/
def basicAuthBody (username password : String) : String :=
  "\x7b\"username\": \"" ++ username ++ "\", \"password\": \"" ++
    password ++ "\"\x7d"

/-- The response half of `basicAuthSetup` (source lines 188-202): a
non-200 status is an error carrying the raw body text; on 200 the body
is decoded as an `AuthResponse` (a failed decode propagates the
decoder's error) and its `token` field is returned. `decodeAuth` stands
for `json.Unmarshal` into `AuthResponse`, its error being the decode
error. -/
def basicAuthRespond (decodeAuth : String → Except String AuthResponse)
    (resp : HttpResponse) : Except String String :=
  if resp.status ≠ 200 then Except.error resp.body
  else
    match decodeAuth resp.body with
    | Except.error e => Except.error e
    | Except.ok r => Except.ok r.token

/-- `basicAuthSetup` end to end: POST the interpolated body to the login
URL over the transport, then handle the response. -/
def basicAuthSetup
    (transport : String → String → Except String HttpResponse)
    (decodeAuth : String → Except String AuthResponse)
    (opts : Options) : Except String String :=
  match transport opts.loginURL (basicAuthBody opts.username opts.password) with
  | Except.error e => Except.error e
  | Except.ok resp => basicAuthRespond decodeAuth resp

/-! ### Derived notions used to state the claims -/

/-- How many images of a result carry a non-empty digest: the number of
`ImageTag` entries the source emits for that result. -/
def digestCount (r : Result) : Nat :=
  (r.images.filter fun img => img.digest.length != 0).length

/-- A finite pagination chain as the registry delivers it: starting
from `url`, each element pairs the (non-empty) URL requested with the
page `fetch` returns for it, each page's `next` leading to the rest of
the chain, the final page's `next` being empty. -/
def chainOk (fetch : String → Except String TagResponse) :
    String → List (String × TagResponse) → Prop
  | url, [] => url = ""
  | url, (u, p) :: rest =>
    url = u ∧ u ≠ "" ∧ fetch u = Except.ok p ∧ chainOk fetch p.next rest

/-- The per-page emissions of a list of pages, kept page by page; the
first failing page aborts. -/
def emitAll (parseTime : String → Option Int) :
    List TagResponse → Except String (List (List ImageTag))
  | [] => Except.ok []
  | p :: ps =>
    match emitResults parseTime p.results with
    | Except.error e => Except.error e
    | Except.ok l =>
      match emitAll parseTime ps with
      | Except.error e => Except.error e
      | Except.ok ls => Except.ok (l :: ls)

/-- Prefix removal phrased through `Option`: `some` of the remainder
when the prefix matches, `none` otherwise. Used only to restate the
normalization for comparison with `normalizeImageURL`. -/
def dropPre (pre s : String) : Option String :=
  if hasPre pre s then some (s.drop pre.length) else none

/-- Claim C8's reading of the normalization: strip whichever single
recognized host prefix is present from the original reference (at most
one can match, as the two prefixes differ in their first character),
then apply the `library/` rule. -/
def claimNormalize (imageURL : String) : String :=
  let s :=
    if hasPre imagePrefix imageURL then imageURL.drop imagePrefix.length
    else if hasPre imagePrefixHub imageURL then
      imageURL.drop imagePrefixHub.length
    else imageURL
  if (splitSlash s.data).length = 1 then "library/" ++ s else s

/-- The normalization as the code actually behaves, restated: strip
`docker.io/` if present, then additionally strip
`registry.hub.docker.com/` if the result still begins with it (so both
can be stripped in sequence), then apply the `library/` rule. -/
def amendedNormalize (imageURL : String) : String :=
  let s1 := (dropPre imagePrefix imageURL).getD imageURL
  let s2 := (dropPre imagePrefixHub s1).getD s1
  if (splitSlash s2.data).length = 1 then "library/" ++ s2 else s2

/-- Modelled from the spec: the JSON escaping of one character of a
string being embedded in a JSON text (quote and backslash escaped; the
characters the counterexamples use need no further cases). -/
def jsonEscapeChar (c : Char) : String :=
  if c = '"' then "\\\"" else if c = '\\' then "\\\\" else String.singleton c

/-- Modelled from the spec: a string rendered as a JSON string literal,
its content escaped. -/
def jsonQuote (s : String) : String :=
  "\"" ++ String.join (s.data.map jsonEscapeChar) ++ "\""

/-- Modelled from the spec: the login body built by safely JSON-encoding
the credentials, as claim C4 asserts the source does. -/
def specAuthBody (username password : String) : String :=
  "\x7b\"username\": " ++ jsonQuote username ++ ", \"password\": " ++
    jsonQuote password ++ "\x7d"

/-- A JSON reader for the inside of a string literal: the characters up
to the first unescaped quote (a backslash takes the next character
verbatim, which is exact for quote and backslash), together with the
rest of the input. `none` when the literal never closes. -/
def jsonStringRead : List Char → Option (List Char × List Char)
  | [] => none
  | '"' :: rest => some ([], rest)
  | '\\' :: e :: rest =>
    match jsonStringRead rest with
    | some (s, r) => some (e :: s, r)
    | none => none
  | c :: rest =>
    match jsonStringRead rest with
    | some (s, r) => some (c :: s, r)
    | none => none

/-- What a JSON parser reads back as the `username` field from a login
body shaped like the source's template: the string literal following
`{"username": "`. -/
def authUsernameReadback (body : String) : Option String :=
  let pre := "\x7b\"username\": \""
  if hasPre pre body then
    match jsonStringRead (body.data.drop pre.length) with
    | some (s, _) => some (String.mk s)
    | none => none
  else none

/-- Concrete auth-body decoder used to exercise `basicAuthRespond`:
accepts exactly the login body `{"token":"abc"}`. -/
def sampleDecodeAuth : String → Except String AuthResponse := fun b =>
  if b = "\x7b\"token\":\"abc\"\x7d" then Except.ok ⟨"abc"⟩
  else Except.error ("invalid auth body: " ++ b)

/-- Concrete tag-page decoder used to exercise `handleTagResponse`:
accepts exactly one body, as an empty final page. -/
def sampleDecodeTags : String → Option TagResponse := fun b =>
  if b = "\x7b\"results\": []\x7d" then some ⟨"", []⟩ else none

/-- First tag-listing URL of the sample resolutions below. -/
def sampleURL1 : String := repoURLFor (normalizeImageURL "nginx")

/-- Continuation URL delivered by the sample registry's first page. -/
def sampleURL2 : String :=
  "https://registry.hub.docker.com/v2/repositories/library/nginx/tags?page=2"

/-- Sample first page: one result, one digest-carrying image, linking
to `sampleURL2`. -/
def pageOne : TagResponse :=
  ⟨sampleURL2, [⟨"v1", "2023-01-01T00:00:00Z",
    [⟨"sha256:aaa", "linux", "amd64"⟩]⟩]⟩

/-- Sample second page: one result, one digest-carrying image, final. -/
def pageTwo : TagResponse :=
  ⟨"", [⟨"v2", "2023-01-01T00:00:00Z",
    [⟨"sha256:bbb", "linux", "arm64"⟩]⟩]⟩

/-- Sample transport serving the two sample pages by URL. -/
def sampleTransport : Request → Except String HttpResponse := fun req =>
  if req.url = sampleURL1 then Except.ok ⟨200, "page1"⟩
  else if req.url = sampleURL2 then Except.ok ⟨200, "page2"⟩
  else Except.error "no such page"

/-- Sample page decoder pairing the two sample bodies with their pages. -/
def samplePageDecode : String → Option TagResponse := fun b =>
  if b = "page1" then some pageOne
  else if b = "page2" then some pageTwo
  else none

/-- Sample timestamp parser: accepts the one timestamp the sample pages
use. -/
def sampleParse : String → Option Int := fun s =>
  if s = "2023-01-01T00:00:00Z" then some 1672531200 else none

/-- A timestamp parser that rejects everything, standing for
`time.Parse` on unparsable `last_updated` values. -/
def noParse : String → Option Int := fun _ => none

/-- A result whose `last_updated` is unparsable and whose images list is
empty. -/
def badResult : Result := ⟨"v1", "not-a-timestamp", []⟩

/-- A final page holding only `badResult`. -/
def badPage : TagResponse := ⟨"", [badResult]⟩

/-- Transport serving `badPage` for every request. -/
def badTransport : Request → Except String HttpResponse := fun _ =>
  Except.ok ⟨200, "badpage"⟩

/-- Decoder pairing the one body `badTransport` serves with `badPage`. -/
def badDecode : String → Option TagResponse := fun b =>
  if b = "badpage" then some badPage else none

/-- A result whose `last_updated` is unparsable but which carries an
image with a digest. -/
def badResultB : Result :=
  ⟨"v1", "not-a-timestamp", [⟨"sha256:aaa", "linux", "amd64"⟩]⟩

/-- A final page holding only `badResultB`. -/
def badPageB : TagResponse := ⟨"", [badResultB]⟩

/-- Transport serving `badPageB` for every request. -/
def badTransportB : Request → Except String HttpResponse := fun _ =>
  Except.ok ⟨200, "badpageB"⟩

/-- Decoder pairing the one body `badTransportB` serves with `badPageB`. -/
def badDecodeB : String → Option TagResponse := fun b =>
  if b = "badpageB" then some badPageB else none

/-- Sample page mixing an image-less result with a result whose images
carry one empty and two non-empty digests. -/
def mixedPage : TagResponse :=
  ⟨"", [⟨"empty-images", "2023-01-01T00:00:00Z", []⟩,
        ⟨"v1", "2023-01-01T00:00:00Z",
          [⟨"", "linux", "amd64"⟩, ⟨"sha256:aaa", "linux", "amd64"⟩,
           ⟨"sha256:bbb", "linux", "arm64"⟩]⟩]⟩

/-- Transport serving `mixedPage` for every request. -/
def mixedTransport : Request → Except String HttpResponse := fun _ =>
  Except.ok ⟨200, "mixed"⟩

/-- Decoder pairing the one body `mixedTransport` serves with
`mixedPage`. -/
def mixedDecode : String → Option TagResponse := fun b =>
  if b = "mixed" then some mixedPage else none

/-- The two entries `mixedPage` emits. -/
def mixTagA : ImageTag := ⟨"v1", "sha256:aaa", 1672531200, "linux", "amd64"⟩

/-- See `mixTagA`. -/
def mixTagB : ImageTag := ⟨"v1", "sha256:bbb", 1672531200, "linux", "arm64"⟩

/-! ### Theorems -/

theorem hasPre_iff (pre s : String) :
    hasPre pre s = true ↔ ∃ t, s = pre ++ t := by
  unfold hasPre
  rw [List.isPrefixOf_iff_prefix]
  constructor
  · rintro ⟨t, ht⟩
    refine ⟨String.mk t, String.ext ?_⟩
    rw [String.data_append]
    exact ht.symm
  · rintro ⟨t, rfl⟩
    exact ⟨t.data, (String.data_append pre t).symm⟩

/-- C9: `IsClient` is a pure predicate, true exactly on the strings that
begin with `docker.io/` or with `registry.hub.docker.com/`. -/
theorem isClient_iff_recognized (s : String) :
    IsClient s = true ↔
      ((∃ t, s = imagePrefix ++ t) ∨ (∃ t, s = imagePrefixHub ++ t)) := by
  unfold IsClient
  rw [Bool.or_eq_true, hasPre_iff, hasPre_iff]

/-- Concrete check of `IsClient` on an owned and a foreign reference,
through `isClient_iff_recognized`. -/
theorem isClient_iff_recognized_witness :
    IsClient "docker.io/nginx" = true ∧ IsClient "quay.io/nginx" = false :=
  ⟨(isClient_iff_recognized _).mpr (Or.inl ⟨"nginx", rfl⟩), by decide⟩

/-- C5: with a non-empty token next to a non-empty username or password,
construction fails with the configuration-conflict error and performs
zero authentication calls, returning no client. -/
theorem new_conflict (auth : Options → Except String String) (opts : Options)
    (hjwt : 0 < opts.jwt.length)
    (hup : 0 < opts.username.length ∨ 0 < opts.password.length) :
    new auth opts =
      (Except.error "cannot specify JWT as well as username/password", 0) := by
  unfold new
  rw [if_pos hup, if_pos hjwt]

/-- `new_conflict` at a concrete conflicting configuration. -/
theorem new_conflict_witness :
    new (fun _ => Except.ok "granted") ⟨"https://login", "user", "pass", "jwt"⟩ =
      (Except.error "cannot specify JWT as well as username/password", 0) :=
  new_conflict _ _ (by decide) (Or.inl (by decide))

/-- C6: the authenticator's response handling: status 200 with a body
decoding to token `tok` yields `tok`; any non-200 status is an error
carrying the raw body text; a 200 body the decoder rejects propagates
the decode error. -/
theorem basicAuth_response_cases
    (decodeAuth : String → Except String AuthResponse) (resp : HttpResponse)
    (tok e : String) :
    (resp.status = 200 ∧ decodeAuth resp.body = Except.ok ⟨tok⟩ →
      basicAuthRespond decodeAuth resp = Except.ok tok) ∧
    (resp.status ≠ 200 →
      basicAuthRespond decodeAuth resp = Except.error resp.body) ∧
    (resp.status = 200 ∧ decodeAuth resp.body = Except.error e →
      basicAuthRespond decodeAuth resp = Except.error e) := by
  refine ⟨?_, ?_, ?_⟩
  · rintro ⟨h200, hdec⟩
    simp [basicAuthRespond, h200, hdec]
  · intro hne
    simp [basicAuthRespond, hne]
  · rintro ⟨h200, hdec⟩
    simp [basicAuthRespond, h200, hdec]

/-- `basicAuth_response_cases` at concrete responses: `{"token":"abc"}`
with status 200 yields `"abc"`; a 401 yields its body text as error. -/
theorem basicAuth_response_cases_witness :
    basicAuthRespond sampleDecodeAuth ⟨200, "\x7b\"token\":\"abc\"\x7d"⟩ =
        Except.ok "abc" ∧
    basicAuthRespond sampleDecodeAuth ⟨401, "unauthorized"⟩ =
        Except.error "unauthorized" :=
  ⟨(basicAuth_response_cases sampleDecodeAuth _ "abc" "e").1 ⟨rfl, rfl⟩,
   (basicAuth_response_cases sampleDecodeAuth _ "abc" "e").2.1 (by decide)⟩

/-- C10: the tag-listing response path never inspects the status code:
the handler's outcome is a function of the body alone (a 404 whose body
decodes as a page is accepted as one), a decodable body is returned as
the page, an undecodable body is the only error, and `doRequest` gives
equal results over transports answering the same body under different
statuses. -/
theorem tagpage_ignores_status
    (decodeTags : String → Option TagResponse) (s₁ s₂ : Nat) (body : String)
    (r : TagResponse) :
    (handleTagResponse decodeTags ⟨s₁, body⟩ =
        handleTagResponse decodeTags ⟨s₂, body⟩) ∧
    (decodeTags body = some r →
      handleTagResponse decodeTags ⟨s₁, body⟩ = Except.ok r) ∧
    (decodeTags body = none →
      handleTagResponse decodeTags ⟨s₁, body⟩ =
        Except.error ("unexpected image tags response: " ++ body)) ∧
    (∀ (t₁ t₂ : Request → Except String HttpResponse) (jwt url : String),
      t₁ (buildTagRequest jwt url) = Except.ok ⟨s₁, body⟩ →
      t₂ (buildTagRequest jwt url) = Except.ok ⟨s₂, body⟩ →
      doRequest t₁ decodeTags jwt url = doRequest t₂ decodeTags jwt url) := by
  refine ⟨rfl, ?_, ?_, ?_⟩
  · intro h
    simp [handleTagResponse, h]
  · intro h
    simp [handleTagResponse, h]
  · intro t₁ t₂ jwt url h₁ h₂
    unfold doRequest
    rw [h₁, h₂]
    rfl

/-- `tagpage_ignores_status` at a concrete 404 whose body decodes as an
empty final page: the page is accepted. -/
theorem tagpage_ignores_status_witness :
    handleTagResponse sampleDecodeTags ⟨404, "\x7b\"results\": []\x7d"⟩ =
      Except.ok ⟨"", []⟩ :=
  (tagpage_ignores_status sampleDecodeTags 404 200 _ ⟨"", []⟩).2.1 rfl

theorem tagsLoop_trace (transport : Request → Except String HttpResponse)
    (decodeTags : String → Option TagResponse)
    (parseTime : String → Option Int) (jwt : String) :
    ∀ (fuel : Nat) (url : String) (acc : List ImageTag)
      (reqs trace : List Request) (res : Except String (List ImageTag)),
      tagsLoop transport decodeTags parseTime jwt fuel url acc reqs =
        (res, trace) →
      ∀ req ∈ trace, req ∈ reqs ∨ ∃ v, req = buildTagRequest jwt v := by
  intro fuel
  induction fuel with
  | zero =>
    intro url acc reqs trace res h req hreq
    unfold tagsLoop at h
    split at h <;> (cases h; exact Or.inl hreq)
  | succ f ih =>
    intro url acc reqs trace res h req hreq
    unfold tagsLoop at h
    split at h
    · cases h
      exact Or.inl hreq
    · split at h
      · cases h
        rcases List.mem_append.mp hreq with h1 | h2
        · exact Or.inl h1
        · exact Or.inr ⟨url, List.mem_singleton.mp h2⟩
      · split at h
        · cases h
          rcases List.mem_append.mp hreq with h1 | h2
          · exact Or.inl h1
          · exact Or.inr ⟨url, List.mem_singleton.mp h2⟩
        · rcases ih _ _ _ _ _ h req hreq with hmem | hex
          · rcases List.mem_append.mp hmem with h1 | h2
            · exact Or.inl h1
            · exact Or.inr ⟨url, List.mem_singleton.mp h2⟩
          · exact Or.inr hex

/-- C7: every request the resolution issues carries the header
`Authorization: JWT <token>` exactly when the client's token is
non-empty, and no header at all when the token is empty. -/
theorem tags_requests_auth_header
    (transport : Request → Except String HttpResponse)
    (decodeTags : String → Option TagResponse)
    (parseTime : String → Option Int) (jwt : String) (fuel : Nat)
    (imageURL : String) (res : Except String (List ImageTag))
    (trace : List Request)
    (hrun : Tags transport decodeTags parseTime jwt fuel imageURL =
      (res, trace)) :
    ∀ req ∈ trace,
      (0 < jwt.length →
        req.headers = [("Authorization", "JWT " ++ jwt)]) ∧
      (jwt.length = 0 → req.headers = []) := by
  intro req hreq
  rcases tagsLoop_trace transport decodeTags parseTime jwt fuel _ [] [] trace
      res hrun req hreq with hmem | ⟨v, rfl⟩
  · cases hmem
  · constructor
    · intro hpos
      simp [buildTagRequest, hpos]
    · intro hzero
      simp [buildTagRequest, hzero]

theorem filterMap_mkTag_length (nm : String) (t : Int) (imgs : List Image) :
    (imgs.filterMap (mkTag nm t)).length =
      (imgs.filter fun img => img.digest.length != 0).length := by
  induction imgs with
  | nil => rfl
  | cons a tl ih =>
    by_cases h : a.digest.length = 0 <;>
      simp [List.filterMap_cons, List.filter_cons, mkTag, h, ih]

theorem mkTag_sha (nm : String) (t : Int) (img : Image) (x : ImageTag)
    (h : mkTag nm t img = some x) : x.sha.length ≠ 0 := by
  unfold mkTag at h
  split at h
  · cases h
  · cases h
    assumption

theorem emitResult_ok (parseTime : String → Option Int) (r : Result)
    (l : List ImageTag) (h : emitResult parseTime r = Except.ok l) :
    l.length = digestCount r ∧ ∀ x ∈ l, x.sha.length ≠ 0 := by
  unfold emitResult at h
  split at h
  · cases h
    rename_i himg
    have : r.images = [] := List.length_eq_zero.mp himg
    simp [digestCount, this]
  · split at h
    · cases h
    · cases h
      rename_i t ht
      constructor
      · exact filterMap_mkTag_length r.name t r.images
      · intro x hx
        rcases List.mem_filterMap.mp hx with ⟨img, _, hmk⟩
        exact mkTag_sha r.name t img x hmk

theorem emitResults_ok (parseTime : String → Option Int) :
    ∀ (rs : List Result) (l : List ImageTag),
      emitResults parseTime rs = Except.ok l →
      l.length = (rs.map digestCount).sum ∧ ∀ x ∈ l, x.sha.length ≠ 0 := by
  intro rs
  induction rs with
  | nil =>
    intro l h
    cases h
    simp
  | cons r tl ih =>
    intro l h
    unfold emitResults at h
    cases he : emitResult parseTime r with
    | error e =>
      rw [he] at h
      cases h
    | ok l1 =>
      rw [he] at h
      cases ht : emitResults parseTime tl with
      | error e =>
        rw [ht] at h
        cases h
      | ok l2 =>
        rw [ht] at h
        cases h
        rcases emitResult_ok parseTime r l1 he with ⟨hlen1, hsha1⟩
        rcases ih l2 ht with ⟨hlen2, hsha2⟩
        constructor
        · simp [List.length_append, hlen1, hlen2]
        · intro x hx
          rcases List.mem_append.mp hx with h1 | h2
          · exact hsha1 x h1
          · exact hsha2 x h2

theorem tagsLoop_ok_sha (transport : Request → Except String HttpResponse)
    (decodeTags : String → Option TagResponse)
    (parseTime : String → Option Int) (jwt : String) :
    ∀ (fuel : Nat) (url : String) (acc : List ImageTag)
      (reqs trace : List Request) (tags : List ImageTag),
      tagsLoop transport decodeTags parseTime jwt fuel url acc reqs =
        (Except.ok tags, trace) →
      (∀ x ∈ acc, x.sha.length ≠ 0) → ∀ x ∈ tags, x.sha.length ≠ 0 := by
  intro fuel
  induction fuel with
  | zero =>
    intro url acc reqs trace tags h hacc
    unfold tagsLoop at h
    split at h
    · cases h
      exact hacc
    · cases h
  | succ f ih =>
    intro url acc reqs trace tags h hacc
    unfold tagsLoop at h
    split at h
    · cases h
      exact hacc
    · cases hdo : doRequest transport decodeTags jwt url with
      | error e =>
        rw [hdo] at h
        cases h
      | ok page =>
        rw [hdo] at h
        dsimp only at h
        cases hemit : emitResults parseTime page.results with
        | error e =>
          rw [hemit] at h
          cases h
        | ok l =>
          rw [hemit] at h
          dsimp only at h
          refine ih _ _ _ _ _ h ?_
          intro x hx
          rcases List.mem_append.mp hx with h1 | h2
          · exact hacc x h1
          · exact (emitResults_ok parseTime page.results l hemit).2 x h2

/-- C1: a successfully processed page emits exactly one `ImageTag` per
(result, image-with-non-empty-digest) pair — a result with no images
contributes zero, images with empty digests are dropped while their
siblings are kept — every emitted entry has a non-empty digest, and so
has every entry of a successful whole resolution. -/
theorem tags_one_per_digest
    (transport : Request → Except String HttpResponse)
    (decodeTags : String → Option TagResponse)
    (parseTime : String → Option Int) (jwt : String) (fuel : Nat)
    (imageURL : String) (page : TagResponse) (l : List ImageTag)
    (tags : List ImageTag) (trace : List Request)
    (hpage : emitResults parseTime page.results = Except.ok l)
    (hrun : Tags transport decodeTags parseTime jwt fuel imageURL =
      (Except.ok tags, trace)) :
    (l.length = (page.results.map digestCount).sum ∧
      ∀ x ∈ l, x.sha.length ≠ 0) ∧
    ∀ x ∈ tags, x.sha.length ≠ 0 := by
  refine ⟨emitResults_ok parseTime page.results l hpage, ?_⟩
  exact tagsLoop_ok_sha transport decodeTags parseTime jwt fuel _ [] [] trace
    tags hrun (by intro x hx; cases hx)

/-- `tags_requests_auth_header` over a concrete one-page resolution with
token `tok`: the single issued request carries the JWT header. -/
theorem tags_requests_auth_header_witness :
    (buildTagRequest "tok"
        "https://registry.hub.docker.com/v2/repositories/library/nginx/tags").headers =
      [("Authorization", "JWT tok")] :=
  ((tags_requests_auth_header (fun _ => Except.ok ⟨200, "pageA"⟩)
      (fun _ => some ⟨"", []⟩) (fun _ => some 0) "tok" 3 "nginx"
      (Except.ok [])
      [buildTagRequest "tok"
        "https://registry.hub.docker.com/v2/repositories/library/nginx/tags"]
      rfl _ (List.mem_singleton.mpr rfl)).1 (by decide))

theorem tagsLoop_chain (transport : Request → Except String HttpResponse)
    (decodeTags : String → Option TagResponse)
    (parseTime : String → Option Int) (jwt : String) :
    ∀ (chain : List (String × TagResponse)) (fuel : Nat) (url : String)
      (acc : List ImageTag) (reqs : List Request)
      (ls : List (List ImageTag)),
      chainOk (doRequest transport decodeTags jwt) url chain →
      emitAll parseTime (chain.map Prod.snd) = Except.ok ls →
      chain.length ≤ fuel →
      tagsLoop transport decodeTags parseTime jwt fuel url acc reqs =
        (Except.ok (acc ++ ls.flatten),
         reqs ++ chain.map fun c => buildTagRequest jwt c.1) := by
  intro chain
  induction chain with
  | nil =>
    intro fuel url acc reqs ls hchain hemit hfuel
    obtain rfl : url = "" := hchain
    obtain rfl : ls = [] := by
      simpa [emitAll] using hemit.symm
    cases fuel <;> simp [tagsLoop]
  | cons c rest ih =>
    rcases c with ⟨u, p⟩
    intro fuel url acc reqs ls hchain hemit hfuel
    obtain ⟨rfl, hne, hfetch, hrest⟩ := hchain
    cases fuel with
    | zero => simp at hfuel
    | succ f =>
      unfold tagsLoop
      rw [if_neg hne, hfetch]
      dsimp only
      simp only [List.map_cons] at hemit
      unfold emitAll at hemit
      cases he : emitResults parseTime p.results with
      | error e =>
        rw [he] at hemit
        cases hemit
      | ok l =>
        rw [he] at hemit
        dsimp only at hemit
        cases ha : emitAll parseTime (rest.map Prod.snd) with
        | error e =>
          rw [ha] at hemit
          cases hemit
        | ok ls' =>
          rw [ha] at hemit
          dsimp only at hemit
          obtain rfl : ls = l :: ls' := by
            cases hemit
            rfl
          dsimp only
          rw [ih f p.next (acc ++ l) (reqs ++ [buildTagRequest jwt url]) ls'
            hrest ha (Nat.le_of_succ_le_succ hfuel)]
          simp [List.append_assoc]

/-- C2: over any pagination chain linked by non-empty `next` URLs and
ending in an empty `next`, resolution issues exactly one request per
page, in chain order, and returns the concatenation of the per-page
emissions in delivery order. -/
theorem tags_pagination_concat
    (transport : Request → Except String HttpResponse)
    (decodeTags : String → Option TagResponse)
    (parseTime : String → Option Int) (jwt : String) (fuel : Nat)
    (imageURL : String) (chain : List (String × TagResponse))
    (ls : List (List ImageTag))
    (hchain : chainOk (doRequest transport decodeTags jwt)
      (repoURLFor (normalizeImageURL imageURL)) chain)
    (hemit : emitAll parseTime (chain.map Prod.snd) = Except.ok ls)
    (hfuel : chain.length ≤ fuel) :
    Tags transport decodeTags parseTime jwt fuel imageURL =
      (Except.ok ls.flatten, chain.map fun c => buildTagRequest jwt c.1) ∧
    (chain.map fun c => buildTagRequest jwt c.1).length = chain.length := by
  constructor
  · have h := tagsLoop_chain transport decodeTags parseTime jwt chain fuel
      (repoURLFor (normalizeImageURL imageURL)) [] [] ls hchain hemit hfuel
    simpa [Tags] using h
  · simp

/-- `tags_pagination_concat` on a concrete two-page chain: exactly two
requests, results concatenated page one first. -/
theorem tags_pagination_concat_witness :
    Tags sampleTransport samplePageDecode sampleParse "" 2 "nginx" =
      (Except.ok
        [⟨"v1", "sha256:aaa", 1672531200, "linux", "amd64"⟩,
         ⟨"v2", "sha256:bbb", 1672531200, "linux", "arm64"⟩],
       [buildTagRequest "" sampleURL1, buildTagRequest "" sampleURL2]) :=
  (tags_pagination_concat sampleTransport samplePageDecode sampleParse "" 2
    "nginx" [(sampleURL1, pageOne), (sampleURL2, pageTwo)]
    [[⟨"v1", "sha256:aaa", 1672531200, "linux", "amd64"⟩],
     [⟨"v2", "sha256:bbb", 1672531200, "linux", "arm64"⟩]]
    ⟨rfl, by decide, rfl, rfl, by decide, rfl, rfl⟩ rfl (by decide)).1

theorem emitResults_error_of_bad (parseTime : String → Option Int)
    (rs : List Result) (r : Result) (hr : r ∈ rs) (himg : r.images ≠ [])
    (hts : parseTime r.timestamp = none) :
    ∃ e, emitResults parseTime rs = Except.error e := by
  induction rs with
  | nil => cases hr
  | cons a tl ih =>
    rcases List.mem_cons.mp hr with rfl | htl
    · refine ⟨"failed to parse image timestamp", ?_⟩
      have he : emitResult parseTime r =
          Except.error "failed to parse image timestamp" := by
        unfold emitResult
        rw [if_neg (fun h => himg (List.length_eq_zero.mp h)), hts]
      unfold emitResults
      rw [he]
    · cases he : emitResult parseTime a with
      | error e =>
        refine ⟨e, ?_⟩
        unfold emitResults
        rw [he]
      | ok l =>
        rcases ih htl with ⟨e, ht⟩
        refine ⟨e, ?_⟩
        unfold emitResults
        rw [he]
        dsimp only
        rw [ht]

theorem tagsLoop_error_of_bad
    (transport : Request → Except String HttpResponse)
    (decodeTags : String → Option TagResponse)
    (parseTime : String → Option Int) (jwt : String) :
    ∀ (chain : List (String × TagResponse)) (fuel : Nat) (url : String)
      (acc : List ImageTag) (reqs : List Request) (page : TagResponse)
      (r : Result),
      chainOk (doRequest transport decodeTags jwt) url chain →
      chain.length ≤ fuel →
      page ∈ chain.map Prod.snd → r ∈ page.results →
      r.images ≠ [] → parseTime r.timestamp = none →
      ∃ e trace,
        tagsLoop transport decodeTags parseTime jwt fuel url acc reqs =
          (Except.error e, trace) := by
  intro chain
  induction chain with
  | nil =>
    intro fuel url acc reqs page r hchain hfuel hpage
    simp at hpage
  | cons c rest ih =>
    rcases c with ⟨u, p⟩
    intro fuel url acc reqs page r hchain hfuel hpage hr himg hts
    obtain ⟨rfl, hne, hfetch, hrest⟩ := hchain
    cases fuel with
    | zero => simp at hfuel
    | succ f =>
      unfold tagsLoop
      rw [if_neg hne, hfetch]
      dsimp only
      simp only [List.map_cons] at hpage
      rcases List.mem_cons.mp hpage with rfl | hmem
      · rcases emitResults_error_of_bad parseTime page.results r hr himg hts
          with ⟨e, he⟩
        refine ⟨e, reqs ++ [buildTagRequest jwt url], ?_⟩
        rw [he]
      · cases he : emitResults parseTime p.results with
        | error e =>
          refine ⟨e, reqs ++ [buildTagRequest jwt url], ?_⟩
          rfl
        | ok l =>
          dsimp only
          exact ih f p.next (acc ++ l) (reqs ++ [buildTagRequest jwt url])
            page r hrest (Nat.le_of_succ_le_succ hfuel) hmem hr himg hts

/-- C3 as frozen is false on the code: `badPage` is fetched and decoded
during the resolution (it is the whole one-page chain), its only result
has a `last_updated` the parser rejects, yet — its images list being
empty — resolution returns `Except.ok []` and no error. -/
theorem tags_bad_timestamp_cex :
    noParse badResult.timestamp = none ∧
    badResult ∈ badPage.results ∧
    chainOk (doRequest badTransport badDecode "")
      (repoURLFor (normalizeImageURL "nginx"))
      [(repoURLFor (normalizeImageURL "nginx"), badPage)] ∧
    (Tags badTransport badDecode noParse "" 3 "nginx").1 = Except.ok [] :=
  ⟨rfl, List.mem_singleton.mpr rfl, ⟨rfl, by decide, rfl, rfl⟩, rfl⟩

/-- C3 amended: an unparsable `last_updated` on a result that carries a
non-empty images list, anywhere in the chain, aborts the whole
resolution with an error and no tags. -/
theorem tags_bad_timestamp_aborts
    (transport : Request → Except String HttpResponse)
    (decodeTags : String → Option TagResponse)
    (parseTime : String → Option Int) (jwt : String) (fuel : Nat)
    (imageURL : String) (chain : List (String × TagResponse))
    (page : TagResponse) (r : Result)
    (hchain : chainOk (doRequest transport decodeTags jwt)
      (repoURLFor (normalizeImageURL imageURL)) chain)
    (hfuel : chain.length ≤ fuel)
    (hpage : page ∈ chain.map Prod.snd) (hr : r ∈ page.results)
    (himg : r.images ≠ []) (hts : parseTime r.timestamp = none) :
    ∃ e trace,
      Tags transport decodeTags parseTime jwt fuel imageURL =
        (Except.error e, trace) :=
  tagsLoop_error_of_bad transport decodeTags parseTime jwt chain fuel
    (repoURLFor (normalizeImageURL imageURL)) [] [] page r hchain hfuel
    hpage hr himg hts

/-- `tags_bad_timestamp_aborts` on a concrete one-page chain whose only
result carries an image but an unparsable timestamp. -/
theorem tags_bad_timestamp_aborts_witness :
    ∃ e trace,
      Tags badTransportB badDecodeB noParse "" 3 "nginx" =
        (Except.error e, trace) :=
  tags_bad_timestamp_aborts badTransportB badDecodeB noParse "" 3 "nginx"
    [(repoURLFor (normalizeImageURL "nginx"), badPageB)] badPageB badResultB
    ⟨rfl, by decide, rfl, rfl⟩ (by decide) (List.mem_singleton.mpr rfl)
    (List.mem_singleton.mpr rfl) (by decide) rfl

/-- C8 as frozen is false on the code: on a reference carrying both
recognized prefixes in sequence, the code strips both (then applies the
`library/` rule), while stripping only whichever single prefix is
present — as the claim words it, formalized by `claimNormalize` —
leaves a multi-segment path unchanged. -/
theorem normalize_cex :
    normalizeImageURL "docker.io/registry.hub.docker.com/foo" =
        "library/foo" ∧
    claimNormalize "docker.io/registry.hub.docker.com/foo" =
        "registry.hub.docker.com/foo" ∧
    normalizeImageURL "docker.io/registry.hub.docker.com/foo" ≠
      claimNormalize "docker.io/registry.hub.docker.com/foo" :=
  ⟨rfl, rfl, by decide⟩

/-- C8 amended: normalization strips `docker.io/` if present, then
additionally strips `registry.hub.docker.com/` if the result still
begins with it, then prepends `library/` exactly when the remaining
path has no `/` separator. -/
theorem normalize_amended (s : String) :
    normalizeImageURL s = amendedNormalize s := by
  simp only [normalizeImageURL, amendedNormalize, trimPre, dropPre]
  split_ifs <;> simp_all

/-- C4 is a bug in the code: `basicAuthSetup` interpolates the raw
credentials into the JSON template. For the username `a"b` the body it
builds is not the JSON encoding of that string — a JSON reader gets
back `a`, not `a"b` — unlike the safely escaped body `specAuthBody`
the claim describes, from which the exact username reads back. -/
theorem basicAuthBody_raw_interpolation :
    basicAuthBody "a\"b" "p" =
        "\x7b\"username\": \"a\"b\", \"password\": \"p\"\x7d" ∧
    authUsernameReadback (basicAuthBody "a\"b" "p") = some "a" ∧
    authUsernameReadback (specAuthBody "a\"b" "p") = some "a\"b" ∧
    basicAuthBody "a\"b" "p" ≠ specAuthBody "a\"b" "p" :=
  ⟨rfl, rfl, rfl, by decide⟩

/-- `tags_one_per_digest` on `mixedPage`: two entries for the two
non-empty digests, the image-less sibling and the empty-digest image
contributing none; all digests in the resolution are non-empty. -/
theorem tags_one_per_digest_witness :
    (([mixTagA, mixTagB] : List ImageTag).length =
        (mixedPage.results.map digestCount).sum ∧
      ∀ x ∈ ([mixTagA, mixTagB] : List ImageTag), x.sha.length ≠ 0) ∧
    ∀ x ∈ ([mixTagA, mixTagB] : List ImageTag), x.sha.length ≠ 0 :=
  tags_one_per_digest mixedTransport mixedDecode sampleParse "" 2 "nginx"
    mixedPage [mixTagA, mixTagB] [mixTagA, mixTagB]
    [buildTagRequest "" sampleURL1] rfl rfl

end Docker
